import Mathlib

/-!
# Verification of the drone-passwordstate plugin (`src/plugin/plugin.go`)

A shallow embedding of the plugin's pipeline: configuration validation,
secret extraction from fetched records (`getSecrets`), the post-fetch
empty guard, and the YAML writer (`outputToYaml`), followed by theorems
settling the specification claims.

External effects (the URL parse outcome of `url.ParseRequestURI`, the HTTP
fetch performed through the resty client, the outcome of `os.OpenFile`, and
the prior content of the output file) are modelled as an explicit `World`
record threaded through `Exec`.
-/

namespace PasswordState

/-- Plugin configuration, mirroring `Config` in `plugin.go`. -/
structure Config where
  apiEndpoint : String
  apiKey : String
  passwordListId : Int
  connectionRetries : Int
  connectionTimeout : Int
  skipTlsVerify : Bool
  keyField : String
  valueField : String
  encodeSecrets : Bool
  outputPath : String
  outputFormat : String
  sectionName : String
  debug : Bool
  noSecretsFail : Bool
  deriving Repr, DecidableEq

/-- A key/value secret, mirroring `Secret` in `plugin.go`. -/
structure Secret where
  key : String
  value : String
  deriving Repr, DecidableEq

/-- One record of the PasswordState JSON response, mirroring the
`PasswordList` struct declared inside `getSecrets` in `plugin.go`. -/
structure PasswordList where
  PasswordID : Int
  Title : String
  UserName : String
  Description : String
  GenericField1 : String
  GenericField2 : String
  GenericField3 : String
  GenericField4 : String
  GenericField5 : String
  GenericField6 : String
  GenericField7 : String
  GenericField8 : String
  GenericField9 : String
  GenericField10 : String
  AccountTypeID : Int
  Notes : String
  URL : String
  Password : String
  ExpiryDate : String
  AllowExport : Bool
  AccountType : String
  deriving Repr, DecidableEq

/-- A `PasswordList` record with every field at its zero value, as produced
by Go JSON deserialization for absent members. -/
def emptyRecord : PasswordList :=
  ⟨0, "", "", "", "", "", "", "", "", "", "", "", "", "", 0, "", "", "", "", false, ""⟩

/-- Embedding of
`reflect.Indirect(reflect.ValueOf(password)).FieldByName(name).String()`
on the fixed `PasswordList` struct: a string field yields its value, an
`int` field yields the placeholder `"<int Value>"`, a `bool` field yields
`"<bool Value>"`, and a name that matches no field yields the zero
`reflect.Value`, whose `String()` is `"<invalid Value>"`. -/
def fieldByName (r : PasswordList) (name : String) : String :=
  match name with
  | "PasswordID" => "<int Value>"
  | "Title" => r.Title
  | "UserName" => r.UserName
  | "Description" => r.Description
  | "GenericField1" => r.GenericField1
  | "GenericField2" => r.GenericField2
  | "GenericField3" => r.GenericField3
  | "GenericField4" => r.GenericField4
  | "GenericField5" => r.GenericField5
  | "GenericField6" => r.GenericField6
  | "GenericField7" => r.GenericField7
  | "GenericField8" => r.GenericField8
  | "GenericField9" => r.GenericField9
  | "GenericField10" => r.GenericField10
  | "AccountTypeID" => "<int Value>"
  | "Notes" => r.Notes
  | "URL" => r.URL
  | "Password" => r.Password
  | "ExpiryDate" => r.ExpiryDate
  | "AllowExport" => "<bool Value>"
  | "AccountType" => r.AccountType
  | _ => "<invalid Value>"

/-- The sentinel returned by `reflect.Value.String()` on the zero `Value`,
compared against literally in `getSecrets`. -/
def invalidSentinel : String := "<invalid Value>"

/-- The extraction loop of `getSecrets` (`plugin.go` lines 201-217): for each
record, resolve the key field; if empty or the sentinel, skip; otherwise
resolve the value field; if empty or the sentinel, skip; otherwise append
the `Secret`. -/
def extractSecrets (keyField valueField : String) : List PasswordList → List Secret
  | [] => []
  | p :: ps =>
    let key := fieldByName p keyField
    if key = "" ∨ key = invalidSentinel then
      extractSecrets keyField valueField ps
    else
      let value := fieldByName p valueField
      if value = "" ∨ value = invalidSentinel then
        extractSecrets keyField valueField ps
      else
        ⟨key, value⟩ :: extractSecrets keyField valueField ps

/-- Drop the trailing elements of a list satisfying `p`. -/
def dropTrailing (p : Char → Bool) (l : List Char) : List Char :=
  (l.reverse.dropWhile p).reverse

/-- Embedding of `strings.Trim(s, " ")`: remove all leading and trailing
space characters (only U+0020; the cutset in the source is `" "`). -/
def goTrimSpaces (s : String) : String :=
  ⟨dropTrailing (· = ' ') (s.toList.dropWhile (· = ' '))⟩

/-- UTF-8 encoding of one code point, as Go's `[]byte(value)` conversion
produces (bytes as `Nat`s below 256). -/
def utf8Bytes (c : Nat) : List Nat :=
  if c < 0x80 then [c]
  else if c < 0x800 then [0xC0 + c / 64, 0x80 + c % 64]
  else if c < 0x10000 then [0xE0 + c / 4096, 0x80 + (c / 64) % 64, 0x80 + c % 64]
  else [0xF0 + c / 262144, 0x80 + (c / 4096) % 64, 0x80 + (c / 64) % 64, 0x80 + c % 64]

/-- The UTF-8 bytes of a string, as Go's `[]byte(s)`. -/
def strBytes (s : String) : List Nat :=
  s.toList.flatMap (fun ch => utf8Bytes ch.toNat)

/-- The standard base64 alphabet used by `base64.StdEncoding`. -/
def b64Char (n : Nat) : Char :=
  "ABCDEFGHIJKLMNOPQRSTUVWXYZabcdefghijklmnopqrstuvwxyz0123456789+/".toList.getD n 'A'

/-- Base64-encode a byte sequence with `=` padding, as
`base64.StdEncoding.EncodeToString`. -/
def base64Chunks : List Nat → List Char
  | b1 :: b2 :: b3 :: rest =>
    b64Char (b1 / 4) :: b64Char ((b1 % 4) * 16 + b2 / 16) ::
    b64Char ((b2 % 16) * 4 + b3 / 64) :: b64Char (b3 % 64) :: base64Chunks rest
  | [b1, b2] =>
    [b64Char (b1 / 4), b64Char ((b1 % 4) * 16 + b2 / 16), b64Char ((b2 % 16) * 4), '=']
  | [b1] => [b64Char (b1 / 4), b64Char ((b1 % 4) * 16), '=', '=']
  | [] => []

/-- Embedding of `base64.StdEncoding.EncodeToString([]byte(s))`. -/
def base64Encode (s : String) : String :=
  ⟨base64Chunks (strBytes s)⟩

/-- The line `outputToYaml` writes for one secret (`plugin.go` lines
110-120): trim spaces off key and value, optionally base64-encode the
trimmed value, and emit `"  <key>: '<value>'\n"`. -/
def secretLine (encode : Bool) (s : Secret) : String :=
  let key := goTrimSpaces s.key
  let value := goTrimSpaces s.value
  let value := if encode then base64Encode value else value
  "  " ++ key ++ ": '" ++ value ++ "'\n"

/-- The full string `outputToYaml` writes: the document header
`"---\n<section>:\n"` followed by one `secretLine` per secret, in order. -/
def yamlContent (sec : String) (encode : Bool) (secrets : List Secret) : String :=
  "---\n" ++ sec ++ ":\n" ++ String.join (secrets.map (secretLine encode))

/-- The error cases `Exec` can return, one per `return err` site in
`plugin.go` (`Exec` and `getSecrets`). -/
inductive ExecError where
  | urlError        -- `url.ParseRequestURI` failed on the endpoint
  | listIdError     -- "provided list ID is not valid"
  | apiKeyError     -- "api key is mandatory"
  | formatError     -- "currently only YAML format is supported"
  | fetchError      -- transport/deserialization failure in `getSecrets`
  | noSecretsError  -- "no secrets were retrieved from PasswordState"
  | writeError      -- `os.OpenFile` failure inside `outputToYaml`
  deriving Repr, DecidableEq

/-- The external effects one run interacts with: whether
`url.ParseRequestURI` succeeds on the configured endpoint, the outcome of
the HTTP GET (a deserialized record list, or a transport error), whether
`os.OpenFile` on the output path fails, and the prior content of the output
file (`none` = the file does not exist; bytes as `Nat`s). -/
structure World where
  urlParses : Bool
  fetch : Except Unit (List PasswordList)
  openFails : Bool
  prior : Option (List Nat)
  deriving Repr

/-- The observable outcome of one `Exec` run: the returned error (`none` =
nil, exit zero), whether the HTTP request was constructed and sent, the path
parameter supplied to the request (when one was), the byte string written to
the output file (when a write occurred), and the final file content. -/
structure ExecResult where
  err : Option ExecError
  httpAttempted : Bool
  pathParam : Option String
  written : Option (List Nat)
  file : Option (List Nat)
  deriving Repr, DecidableEq

/-- The validation block of `Exec` (`plugin.go` lines 61-78): the four
checks in source order, returning the first violated one. `urlOk` is the
outcome of `url.ParseRequestURI(p.Config.ApiEndpoint)`. -/
def validate (c : Config) (urlOk : Bool) : Option ExecError :=
  if !urlOk then some .urlError
  else if c.passwordListId = 0 then some .listIdError
  else if c.apiKey = "" then some .apiKeyError
  else if c.outputFormat ≠ "YAML" then some .formatError
  else none

/-- Writing `w` into a file holding `prior`, opened `O_WRONLY|O_CREATE`
(no `O_TRUNC`): bytes are written from offset 0 over the existing content,
and any prior content beyond the written length remains. -/
def overwriteNoTrunc (w prior : List Nat) : List Nat :=
  w ++ prior.drop w.length

/-- Embedding of `outputToYaml` (`plugin.go` lines 101-124) acting on a file
state: if the open fails, nothing is written and the error is returned;
otherwise the header and secret lines are written from offset 0 without
truncation (`O_WRONLY|O_CREATE`, no `O_TRUNC`), a file being created empty
when absent, and `nil` is returned. Results: (returned error, bytes
written, final file state). -/
def outputToYaml (openFails : Bool) (prior : Option (List Nat))
    (sec : String) (encode : Bool) (secrets : List Secret) :
    Option ExecError × Option (List Nat) × Option (List Nat) :=
  if openFails then
    (some .writeError, none, prior)
  else
    let written := strBytes (yamlContent sec encode secrets)
    (none, some written, some (overwriteNoTrunc written (prior.getD [])))

/-- Embedding of `Exec` (`plugin.go` lines 49-98): validate, fetch via
`getSecrets`, run the empty guard, then write the YAML file. The return
value of the `outputToYaml` call is discarded, exactly as at line 93 of the
source. -/
def Exec (c : Config) (w : World) : ExecResult :=
  match validate c w.urlParses with
  | some e => ⟨some e, false, none, none, w.prior⟩
  | none =>
    -- getSecrets: the client sends the request with path parameter
    -- `strconv.Itoa(p.Config.PasswordListId)`.
    let pathParam := toString c.passwordListId
    match w.fetch with
    | .error _ => ⟨some .fetchError, true, some pathParam, none, w.prior⟩
    | .ok passwords =>
      let secrets := extractSecrets c.keyField c.valueField passwords
      if c.noSecretsFail ∧ secrets.length = 0 then
        ⟨some .noSecretsError, true, some pathParam, none, w.prior⟩
      else if c.outputFormat = "YAML" then
        -- the error returned by outputToYaml is NOT checked by Exec
        let (_e, written, file) :=
          outputToYaml w.openFails w.prior c.sectionName c.encodeSecrets secrets
        ⟨none, true, some pathParam, written, file⟩
      else
        ⟨none, true, some pathParam, none, w.prior⟩

/-- The record qualification test of the spec: both configured fields
resolve on the record to a string that is non-empty and not the
missing-field sentinel. -/
def contributes (kf vf : String) (r : PasswordList) : Bool :=
  decide ((fieldByName r kf ≠ "" ∧ fieldByName r kf ≠ invalidSentinel) ∧
          (fieldByName r vf ≠ "" ∧ fieldByName r vf ≠ invalidSentinel))

/-- The example configuration of spec §8. -/
def cfgEx : Config :=
  { apiEndpoint := "https://ps.example.com", apiKey := "k", passwordListId := 42,
    connectionRetries := 0, connectionTimeout := 0, skipTlsVerify := false,
    keyField := "Title", valueField := "Password", encodeSecrets := false,
    outputPath := "secrets.yml", outputFormat := "YAML", sectionName := "secrets",
    debug := false, noSecretsFail := false }

/-- First example record of spec §8: `{"Title":"db","Password":"p@ss"}`. -/
def rec1 : PasswordList := { emptyRecord with Title := "db", Password := "p@ss" }

/-- Second example record of spec §8: `{"Title":"","Password":"x"}`. -/
def rec2 : PasswordList := { emptyRecord with Title := "", Password := "x" }

end PasswordState

namespace PasswordState

/-- C3: for every sequence of records, a record contributes a `Secret` to
the output iff both the configured key field and the configured value field
resolve on it to a string that is non-empty and not the missing-field
sentinel, and the produced `Secret`s keep the input order: the extraction
loop computes exactly the in-order filter of qualifying records, mapped to
their key/value pair. Skipped records raise no error — extraction is a
total function into a plain list. -/
theorem extractSecrets_eq_filter_map (kf vf : String) (rs : List PasswordList) :
    extractSecrets kf vf rs =
      (rs.filter (fun r => contributes kf vf r)).map
        (fun r => ⟨fieldByName r kf, fieldByName r vf⟩) := by
  induction rs with
  | nil => rfl
  | cons p ps ih =>
    by_cases h1 : fieldByName p kf = "" ∨ fieldByName p kf = invalidSentinel
    · have hc : contributes kf vf p = false := by
        simp only [contributes, decide_eq_false_iff_not]
        tauto
      simp [extractSecrets, h1, List.filter_cons, hc, ih]
    · by_cases h2 : fieldByName p vf = "" ∨ fieldByName p vf = invalidSentinel
      · have hc : contributes kf vf p = false := by
          simp only [contributes, decide_eq_false_iff_not]
          tauto
        simp [extractSecrets, h1, h2, List.filter_cons, hc, ih]
      · have hc : contributes kf vf p = true := by
          simp only [contributes, decide_eq_true_eq]
          tauto
        simp [extractSecrets, h1, h2, List.filter_cons, hc, ih]

/-- C4: with the configuration `{keyField="Title", valueField="Password",
outputFormat="YAML", section="secrets"}` and the two-record response
`[{Title:"db",Password:"p@ss"}, {Title:"",Password:"x"}]`, the pipeline
skips the second record for its empty key and writes exactly
`"---\nsecrets:\n  db: 'p@ss'\n"`; with `encodeSecrets=true` the secret
line is instead `"  db: 'cEBzcw=='\n"`. -/
theorem exec_example_output :
    extractSecrets "Title" "Password" [rec1, rec2] = [⟨"db", "p@ss"⟩] ∧
    (Exec cfgEx ⟨true, .ok [rec1, rec2], false, none⟩).written =
      some (strBytes "---\nsecrets:\n  db: 'p@ss'\n") ∧
    (Exec cfgEx ⟨true, .ok [rec1, rec2], false, none⟩).file =
      some (strBytes "---\nsecrets:\n  db: 'p@ss'\n") ∧
    (Exec cfgEx ⟨true, .ok [rec1, rec2], false, none⟩).err = none ∧
    (Exec { cfgEx with encodeSecrets := true } ⟨true, .ok [rec1, rec2], false, none⟩).written =
      some (strBytes ("---\nsecrets:\n" ++ "  db: 'cEBzcw=='\n")) := by
  decide

/-- C7: validation fails exactly when the endpoint URL parse fails, the
list identifier is zero, the API key is empty, or the output format is not
"YAML"; the error returned is the first violated condition in that fixed
order; and a validation failure has no other effect: `Exec` then returns
that error with no HTTP attempt, no path parameter, no write, and the file
untouched. -/
theorem validate_exactly_four_checks (c : Config) (u : Bool) :
    (validate c u = none ↔
      u = true ∧ c.passwordListId ≠ 0 ∧ c.apiKey ≠ "" ∧ c.outputFormat = "YAML") ∧
    (validate c u = some .urlError ↔ u = false) ∧
    (validate c u = some .listIdError ↔ u = true ∧ c.passwordListId = 0) ∧
    (validate c u = some .apiKeyError ↔
      u = true ∧ c.passwordListId ≠ 0 ∧ c.apiKey = "") ∧
    (validate c u = some .formatError ↔
      u = true ∧ c.passwordListId ≠ 0 ∧ c.apiKey ≠ "" ∧ c.outputFormat ≠ "YAML") ∧
    (∀ (w : World) (e : ExecError), w.urlParses = u → validate c u = some e →
      Exec c w = ⟨some e, false, none, none, w.prior⟩) := by
  refine ⟨?_, ?_, ?_, ?_, ?_, ?_⟩
  · cases u <;> simp [validate] <;> split_ifs <;> simp_all
  · cases u <;> simp [validate] <;> split_ifs <;> simp_all
  · cases u <;> simp [validate] <;> split_ifs <;> simp_all
  · cases u <;> simp [validate] <;> split_ifs <;> simp_all
  · cases u <;> simp [validate] <;> split_ifs <;> simp_all
  · intro w e hw hv
    subst hw
    simp [Exec, hv]

/-- Witness for C7 at concrete configurations: the example configuration
passes validation, and dropping its API key fails with the API-key error. -/
theorem validate_exactly_four_checks_witness :
    validate cfgEx true = none ∧
    validate { cfgEx with apiKey := "" } true = some .apiKeyError :=
  ⟨(validate_exactly_four_checks cfgEx true).1.mpr (by decide),
   (validate_exactly_four_checks { cfgEx with apiKey := "" } true).2.2.2.1.mpr (by decide)⟩

/-- C8: whenever the endpoint URL fails to parse, `Exec` returns the URL
validation error before any HTTP request is constructed or sent: no fetch
is attempted, no path parameter is set, nothing is written, and the output
file is untouched. -/
theorem exec_invalid_url_no_fetch (c : Config) (w : World)
    (h : w.urlParses = false) :
    (Exec c w).err = some .urlError ∧ (Exec c w).httpAttempted = false ∧
    (Exec c w).pathParam = none ∧ (Exec c w).written = none ∧
    (Exec c w).file = w.prior := by
  simp [Exec, validate, h]

/-- Witness for C8 at a concrete configuration and world. -/
theorem exec_invalid_url_no_fetch_witness :
    (Exec cfgEx ⟨false, .ok [], false, none⟩).err = some .urlError ∧
    (Exec cfgEx ⟨false, .ok [], false, none⟩).httpAttempted = false :=
  ⟨(exec_invalid_url_no_fetch cfgEx ⟨false, .ok [], false, none⟩ rfl).1,
   (exec_invalid_url_no_fetch cfgEx ⟨false, .ok [], false, none⟩ rfl).2.1⟩

/-- C9: validation rejects only a list identifier equal to zero: every
negative identifier passes validation (given the other three checks pass),
the fetch is attempted, and the identifier is passed through to the request
path parameter as its unchanged decimal representation (`strconv.Itoa`). -/
theorem negative_listId_accepted (c : Config) (w : World)
    (hneg : c.passwordListId < 0) (hu : w.urlParses = true)
    (hk : c.apiKey ≠ "") (hf : c.outputFormat = "YAML") :
    validate c w.urlParses = none ∧
    (Exec c w).httpAttempted = true ∧
    (Exec c w).pathParam = some (toString c.passwordListId) := by
  have hz : c.passwordListId ≠ 0 := by omega
  have hv : validate c w.urlParses = none := by
    simp [validate, hu, hz, hk, hf]
  refine ⟨hv, ?_, ?_⟩ <;>
    · simp only [Exec, hv]
      rcases w.fetch with _ | pws <;> simp <;> split <;> simp

/-- Helper: characterization of a passing validation (shared by several
proofs below). -/
theorem validate_none_iff (c : Config) (u : Bool) :
    validate c u = none ↔
      u = true ∧ c.passwordListId ≠ 0 ∧ c.apiKey ≠ "" ∧ c.outputFormat = "YAML" := by
  cases u <;> simp [validate] <;> split_ifs <;> simp_all

/-- Helper: the YAML content for an empty secret list is exactly the
document header with the empty section. -/
theorem yamlContent_nil (sec : String) (e : Bool) :
    yamlContent sec e [] = "---\n" ++ sec ++ ":\n" := by
  simp [yamlContent, String.join]

/-- Helper: turning the post-fetch guard disjunction into the negation of
the guard condition tested by `Exec`. -/
theorem guard_not_fires {c : Config} {secrets : List Secret}
    (h : c.noSecretsFail = false ∨ secrets ≠ []) :
    ¬(c.noSecretsFail = true ∧ secrets = []) := by
  rcases h with h | h
  · simp [h]
  · simp [h]

/-- C6: when the fail-on-empty flag is set and extraction yields zero
secrets, `Exec` returns the empty-result error and performs no file write;
when the flag is unset and zero secrets result, `Exec` succeeds, and (when
the file open succeeds) the write performed is exactly the document header
with the empty section. -/
theorem empty_guard_behavior (c : Config) (w : World)
    (passwords : List PasswordList)
    (hv : validate c w.urlParses = none)
    (hf : w.fetch = .ok passwords)
    (hz : extractSecrets c.keyField c.valueField passwords = []) :
    (c.noSecretsFail = true →
      (Exec c w).err = some .noSecretsError ∧ (Exec c w).written = none ∧
      (Exec c w).file = w.prior) ∧
    (c.noSecretsFail = false →
      (Exec c w).err = none ∧
      (w.openFails = false →
        (Exec c w).written =
          some (strBytes ("---\n" ++ c.sectionName ++ ":\n")))) := by
  have hfmt : c.outputFormat = "YAML" := ((validate_none_iff c w.urlParses).mp hv).2.2.2
  constructor
  · intro hns
    simp [Exec, hv, hf, hz, hns]
  · intro hns
    constructor
    · cases ho : w.openFails <;>
        simp [Exec, hv, hf, hz, hns, hfmt, outputToYaml, ho]
    · intro ho
      simp [Exec, hv, hf, hz, hns, hfmt, outputToYaml, ho, yamlContent_nil]

/-- Witness for C6: with the flag set and an empty response the example run
fails with the empty-result error; with the flag unset it writes exactly
the header with the empty section. -/
theorem empty_guard_behavior_witness :
    (Exec { cfgEx with noSecretsFail := true }
        ⟨true, .ok [], false, none⟩).err = some .noSecretsError ∧
    (Exec cfgEx ⟨true, .ok [], false, none⟩).written =
      some (strBytes "---\nsecrets:\n") :=
  ⟨((empty_guard_behavior { cfgEx with noSecretsFail := true }
      ⟨true, .ok [], false, none⟩ [] (by decide) rfl (by decide)).1 rfl).1,
   (((empty_guard_behavior cfgEx ⟨true, .ok [], false, none⟩ []
      (by decide) rfl (by decide)).2 rfl).2 rfl).trans (by decide)⟩

/-- C1 counterexample: a configuration that passes validation and yields a
secret, with a failing file open: `Exec` nevertheless returns no error (the
run exits zero), refuting the claim that a write failure aborts the run. -/
theorem exec_write_failure_counterexample :
    validate cfgEx true = none ∧
    extractSecrets cfgEx.keyField cfgEx.valueField [rec1] = [⟨"db", "p@ss"⟩] ∧
    (Exec cfgEx ⟨true, .ok [rec1], true, none⟩).err = none ∧
    (Exec cfgEx ⟨true, .ok [rec1], true, none⟩).written = none := by
  decide

/-- C1 amended: when the run reaches the write stage and the file open
fails, `outputToYaml` itself returns the write error, but `Exec` discards
`outputToYaml`'s return value and returns nil: the failure is logged only,
nothing is written, the file is untouched, and the run still exits zero. -/
theorem exec_ignores_write_error (c : Config) (w : World)
    (passwords : List PasswordList)
    (hv : validate c w.urlParses = none)
    (hf : w.fetch = .ok passwords)
    (hguard : c.noSecretsFail = false ∨
      extractSecrets c.keyField c.valueField passwords ≠ [])
    (ho : w.openFails = true) :
    (outputToYaml w.openFails w.prior c.sectionName c.encodeSecrets
      (extractSecrets c.keyField c.valueField passwords)).1 = some .writeError ∧
    (Exec c w).err = none ∧ (Exec c w).written = none ∧
    (Exec c w).file = w.prior := by
  have hfmt : c.outputFormat = "YAML" := ((validate_none_iff c w.urlParses).mp hv).2.2.2
  have hg := guard_not_fires hguard
  simp [Exec, outputToYaml, hv, hf, hfmt, ho, hg]

/-- Witness for C1's amended statement at a concrete run. -/
theorem exec_ignores_write_error_witness :
    (Exec cfgEx ⟨true, .ok [rec1, rec2], true, some [65]⟩).err = none ∧
    (Exec cfgEx ⟨true, .ok [rec1, rec2], true, some [65]⟩).file = some [65] :=
  ⟨(exec_ignores_write_error cfgEx ⟨true, .ok [rec1, rec2], true, some [65]⟩
      [rec1, rec2] (by decide) rfl (Or.inl rfl) rfl).2.1,
   (exec_ignores_write_error cfgEx ⟨true, .ok [rec1, rec2], true, some [65]⟩
      [rec1, rec2] (by decide) rfl (Or.inl rfl) rfl).2.2.2⟩

/-- C2 counterexample: a successful write over a longer pre-existing file
leaves the tail of the prior content in place — the file does not contain
exactly the header and secret lines, because the open does not truncate. -/
theorem exec_no_truncation_counterexample :
    (Exec cfgEx ⟨true, .ok [], false, some (strBytes "0123456789ABCDEF")⟩).file =
      some (strBytes ("---\nsecrets:\n" ++ "DEF")) ∧
    strBytes ("---\nsecrets:\n" ++ "DEF") ≠ strBytes "---\nsecrets:\n" := by
  decide

/-- C2 amended: after a successful write the bytes written are exactly the
document header followed by one line per surviving secret; but the file is
opened without truncation, so the final file content is the written bytes
followed by whatever prior content extends beyond the written length. Only
when the file did not previously exist does it contain exactly the written
content. -/
theorem exec_write_overwrites_without_truncate (c : Config) (w : World)
    (passwords : List PasswordList)
    (hv : validate c w.urlParses = none)
    (hf : w.fetch = .ok passwords)
    (hguard : c.noSecretsFail = false ∨
      extractSecrets c.keyField c.valueField passwords ≠ [])
    (ho : w.openFails = false) :
    (Exec c w).written =
      some (strBytes (yamlContent c.sectionName c.encodeSecrets
        (extractSecrets c.keyField c.valueField passwords))) ∧
    (Exec c w).file =
      some (strBytes (yamlContent c.sectionName c.encodeSecrets
          (extractSecrets c.keyField c.valueField passwords)) ++
        (w.prior.getD []).drop (strBytes (yamlContent c.sectionName
          c.encodeSecrets
          (extractSecrets c.keyField c.valueField passwords))).length) ∧
    (w.prior = none →
      (Exec c w).file =
        some (strBytes (yamlContent c.sectionName c.encodeSecrets
          (extractSecrets c.keyField c.valueField passwords)))) := by
  have hfmt : c.outputFormat = "YAML" := ((validate_none_iff c w.urlParses).mp hv).2.2.2
  have hg := guard_not_fires hguard
  refine ⟨?_, ?_, ?_⟩
  · simp [Exec, outputToYaml, hv, hf, hfmt, ho, hg]
  · simp [Exec, outputToYaml, hv, hf, hfmt, ho, hg, overwriteNoTrunc]
  · intro hp
    simp [Exec, outputToYaml, hv, hf, hfmt, ho, hg, hp, overwriteNoTrunc]

/-- Witness for C2's amended statement: over the prior content
`"0123456789ABCDEF"` the example run leaves the tail `"DEF"`. -/
theorem exec_write_overwrites_without_truncate_witness :
    (Exec cfgEx ⟨true, .ok [rec1], false,
        some (strBytes "0123456789ABCDEF")⟩).file =
      some (strBytes "---\nsecrets:\n  db: 'p@ss'\n" ++
        (strBytes "0123456789ABCDEF").drop 26) :=
  ((exec_write_overwrites_without_truncate cfgEx
      ⟨true, .ok [rec1], false, some (strBytes "0123456789ABCDEF")⟩
      [rec1] (by decide) rfl (Or.inl rfl) rfl).2.1).trans (by decide)

/-- Helper: every list splits as its space-free tail-trimmed part followed
by the trailing run satisfying `p`. -/
theorem dropTrailing_decomp (p : Char → Bool) (m : List Char) :
    m = dropTrailing p m ++ (m.reverse.takeWhile p).reverse := by
  conv_lhs => rw [← List.reverse_reverse m,
    ← List.takeWhile_append_dropWhile p m.reverse]
  rw [List.reverse_append]
  rfl

/-- Helper: every string splits as a run of characters satisfying `p`, the
trimmed core, and another run satisfying `p`. -/
theorem trim_decomp (p : Char → Bool) (l : List Char) :
    ∃ a b : List Char, (∀ c ∈ a, p c = true) ∧ (∀ c ∈ b, p c = true) ∧
      l = a ++ dropTrailing p (l.dropWhile p) ++ b := by
  refine ⟨l.takeWhile p, ((l.dropWhile p).reverse.takeWhile p).reverse,
    ?_, ?_, ?_⟩
  · intro c hc
    exact List.mem_takeWhile_imp hc
  · intro c hc
    rw [List.mem_reverse] at hc
    exact List.mem_takeWhile_imp hc
  · conv_lhs => rw [← List.takeWhile_append_dropWhile p l,
      dropTrailing_decomp p (l.dropWhile p)]
    rw [List.append_assoc]

/-- Helper: the head of the trimmed core does not satisfy `p`. -/
theorem trim_head_not (p : Char → Bool) (l : List Char) (c : Char)
    (h : (dropTrailing p (l.dropWhile p)).head? = some c) : p c = false := by
  have hm : (l.dropWhile p).head? = some c := by
    rcases hd : dropTrailing p (l.dropWhile p) with _ | ⟨c', t⟩
    · rw [hd] at h
      simp at h
    · rw [hd] at h
      simp at h
      subst h
      rw [dropTrailing_decomp p (l.dropWhile p), hd]
      rfl
  have := List.head?_dropWhile_not p l
  rw [hm] at this
  exact this

/-- Helper: the last character of the trimmed core does not satisfy `p`. -/
theorem trim_last_not (p : Char → Bool) (l : List Char) (c : Char)
    (h : (dropTrailing p (l.dropWhile p)).getLast? = some c) : p c = false := by
  rw [List.getLast?_eq_head?_reverse] at h
  have hrev : (dropTrailing p (l.dropWhile p)).reverse =
      List.dropWhile p (l.dropWhile p).reverse := by
    simp [dropTrailing]
  rw [hrev] at h
  have := List.head?_dropWhile_not p (l.dropWhile p).reverse
  rw [h] at this
  exact this

/-- C5 counterexample: trimming uses the cutset `" "` only, so a key
beginning with a tab and a value ending with a newline keep those
characters in the written line; the claim's whitespace-trimmed line is not
what is produced. -/
theorem secretLine_tab_counterexample :
    secretLine false ⟨"\tk", "v\n"⟩ = "  \tk: 'v\n'\n" ∧
    secretLine false ⟨"\tk", "v\n"⟩ ≠ "  k: 'v'\n" ∧
    goTrimSpaces "\tk" = "\tk" ∧ goTrimSpaces "v\n" = "v\n" := by
  decide

/-- C5 amended: for every secret written to the file, the key and value
appearing in the output line are the secret's key and value with all
surrounding space characters (U+0020) removed — other whitespace such as
tabs and newlines is kept — the value being base64-encoded after trimming
when encoding is enabled. The trimmed strings are characterized: each is
the original minus a leading and a trailing run of spaces, and neither
starts nor ends with a space. -/
theorem secretLine_trims_spaces_only (enc : Bool) (s : Secret) :
    secretLine enc s =
      "  " ++ goTrimSpaces s.key ++ ": '" ++
        (if enc then base64Encode (goTrimSpaces s.value)
         else goTrimSpaces s.value) ++ "'\n" ∧
    (∃ a b : List Char, (∀ c ∈ a, c = ' ') ∧ (∀ c ∈ b, c = ' ') ∧
      s.key.toList = a ++ (goTrimSpaces s.key).toList ++ b) ∧
    (∀ c, (goTrimSpaces s.key).toList.head? = some c → c ≠ ' ') ∧
    (∀ c, (goTrimSpaces s.key).toList.getLast? = some c → c ≠ ' ') ∧
    (∃ a b : List Char, (∀ c ∈ a, c = ' ') ∧ (∀ c ∈ b, c = ' ') ∧
      s.value.toList = a ++ (goTrimSpaces s.value).toList ++ b) ∧
    (∀ c, (goTrimSpaces s.value).toList.head? = some c → c ≠ ' ') ∧
    (∀ c, (goTrimSpaces s.value).toList.getLast? = some c → c ≠ ' ') := by
  refine ⟨rfl, ?_, ?_, ?_, ?_, ?_, ?_⟩
  · obtain ⟨a, b, ha, hb, hl⟩ := trim_decomp (· = ' ') s.key.toList
    exact ⟨a, b, fun c hc => by simpa using ha c hc,
      fun c hc => by simpa using hb c hc, hl⟩
  · intro c hc
    have := trim_head_not (· = ' ') s.key.toList c hc
    simpa using this
  · intro c hc
    have := trim_last_not (· = ' ') s.key.toList c hc
    simpa using this
  · obtain ⟨a, b, ha, hb, hl⟩ := trim_decomp (· = ' ') s.value.toList
    exact ⟨a, b, fun c hc => by simpa using ha c hc,
      fun c hc => by simpa using hb c hc, hl⟩
  · intro c hc
    have := trim_head_not (· = ' ') s.value.toList c hc
    simpa using this
  · intro c hc
    have := trim_last_not (· = ' ') s.value.toList c hc
    simpa using this

/-- Witness for C5's amended statement at a concrete secret with
surrounding spaces. -/
theorem secretLine_trims_spaces_only_witness :
    secretLine true ⟨" db ", " p@ss "⟩ =
      "  " ++ goTrimSpaces " db " ++ ": '" ++
        (if true then base64Encode (goTrimSpaces " p@ss ")
         else goTrimSpaces " p@ss ") ++ "'\n" :=
  (secretLine_trims_spaces_only true ⟨" db ", " p@ss "⟩).1

/-- C10: a configured field name that names an existing non-string field
resolves through `reflect.Value.String()` to the reflection placeholder —
`"<int Value>"` for the `int` fields, `"<bool Value>"` for the `bool`
field — which is neither empty nor the invalid sentinel, so the record is
not skipped and the placeholder text is written to the output file as the
key (or value). -/
theorem nonstring_field_placeholder (r : PasswordList) (vf sec : String)
    (hv1 : fieldByName r vf ≠ "")
    (hv2 : fieldByName r vf ≠ invalidSentinel) :
    fieldByName r "PasswordID" = "<int Value>" ∧
    fieldByName r "AccountTypeID" = "<int Value>" ∧
    fieldByName r "AllowExport" = "<bool Value>" ∧
    ("<int Value>" ≠ "" ∧ "<int Value>" ≠ invalidSentinel ∧
     "<bool Value>" ≠ "" ∧ "<bool Value>" ≠ invalidSentinel) ∧
    extractSecrets "PasswordID" vf [r] =
      [⟨"<int Value>", fieldByName r vf⟩] ∧
    extractSecrets "AllowExport" vf [r] =
      [⟨"<bool Value>", fieldByName r vf⟩] ∧
    extractSecrets vf "PasswordID" [r] =
      [⟨fieldByName r vf, "<int Value>"⟩] ∧
    yamlContent sec false (extractSecrets "PasswordID" vf [r]) =
      "---\n" ++ sec ++ ":\n" ++
        ("  <int Value>: '" ++ goTrimSpaces (fieldByName r vf) ++ "'\n") := by
  have hk : fieldByName r "PasswordID" = "<int Value>" := rfl
  have hb : fieldByName r "AllowExport" = "<bool Value>" := rfl
  have hv2' : fieldByName r vf ≠ "<invalid Value>" := by
    simpa [invalidSentinel] using hv2
  have h5 : extractSecrets "PasswordID" vf [r] =
      [⟨"<int Value>", fieldByName r vf⟩] := by
    simp [extractSecrets, invalidSentinel, hk, hv1, hv2']
  refine ⟨rfl, rfl, rfl, by decide, h5, ?_, ?_, ?_⟩
  · simp [extractSecrets, invalidSentinel, hb, hv1, hv2']
  · simp [extractSecrets, invalidSentinel, hk, hv1, hv2']
  · rw [h5]
    rfl

/-- Witness for C10 at the first example record with value field
`"Password"`. -/
theorem nonstring_field_placeholder_witness :
    extractSecrets "PasswordID" "Password" [rec1] =
      [⟨"<int Value>", "p@ss"⟩] :=
  ((nonstring_field_placeholder rec1 "Password" "s"
      (by decide) (by decide)).2.2.2.2.1).trans (by decide)

/-- Witness for C9 at the concrete identifier -1. -/
theorem negative_listId_accepted_witness :
    (Exec { cfgEx with passwordListId := -1 }
        ⟨true, .ok [], false, none⟩).pathParam = some "-1" :=
  ((negative_listId_accepted { cfgEx with passwordListId := -1 }
      ⟨true, .ok [], false, none⟩ (by decide) rfl (by decide) rfl).2.2).trans (by decide)

end PasswordState
